import Mathlib

set_option maxRecDepth 100000

/-!
# Verification of the YAP token program core

Shallow embedding of the YAP Solana program (`contracts/programs/yap/src`):
the Merkle leaf/proof verifier of the Claim instruction, the standalone
Merkle helper in `utils/merkle.rs`, the cumulative-claim delta algorithm,
and the two time-prorated rate limiters (TriggerInflation, Distribute).

Bytes are modelled as `Nat` values below 256, digests as `List Nat` of
length 32.  Machine integers are modelled as `Nat` (for `u64`/`u128`) and
`Int` (for `i64`), with explicit `% 2^w` wherever the Rust code wraps
(`as u64`, `as u128` casts) and explicit bound checks wherever the Rust
code uses `checked_*` arithmetic.

The hash primitives used by the source — `solana_program::keccak::hash`
(Keccak-256) and `solana_program::hash::hash` (SHA-256) — are embedded as
executable functions so that concrete digests can be evaluated by the
kernel.
-/

namespace Yap

/-! ## 64-bit / 32-bit word helpers -/

/-- `2^64`, the modulus of `u64` arithmetic. -/
def U64 : Nat := 2 ^ 64

/-- `2^128`, the modulus of `u128` arithmetic. -/
def U128 : Nat := 2 ^ 128

/-- `2^32`, the modulus of `u32` arithmetic. -/
def U32 : Nat := 2 ^ 32

/-- Rotate a 64-bit word left by `n` (0 ≤ n < 64). -/
def rotl64 (x n : Nat) : Nat :=
  ((x <<< n) ||| (x >>> (64 - n))) % U64

/-- Rotate a 32-bit word right by `n` (0 ≤ n < 32). -/
def rotr32 (x n : Nat) : Nat :=
  ((x >>> n) ||| (x <<< (32 - n))) % U32

/-- Little-endian value of a byte list (first byte least significant). -/
def le64FromBytes (bs : List Nat) : Nat :=
  bs.foldr (fun b acc => b + 256 * acc) 0

/-- The 8 little-endian bytes of a `u64` value (`u64::to_le_bytes`). -/
def toLeBytes8 (n : Nat) : List Nat :=
  [n % 256, n / 256 % 256, n / 256 ^ 2 % 256, n / 256 ^ 3 % 256,
   n / 256 ^ 4 % 256, n / 256 ^ 5 % 256, n / 256 ^ 6 % 256, n / 256 ^ 7 % 256]

/-- Big-endian value of a byte list (first byte most significant). -/
def be32FromBytes (bs : List Nat) : Nat :=
  bs.foldl (fun acc b => acc * 256 + b) 0

/-- The 4 big-endian bytes of a `u32` value. -/
def toBeBytes4 (n : Nat) : List Nat :=
  [n / 2 ^ 24 % 256, n / 2 ^ 16 % 256, n / 256 % 256, n % 256]

/-- The 8 big-endian bytes of a `u64` value. -/
def toBeBytes8 (n : Nat) : List Nat :=
  [n / 2 ^ 56 % 256, n / 2 ^ 48 % 256, n / 2 ^ 40 % 256, n / 2 ^ 32 % 256,
   n / 2 ^ 24 % 256, n / 2 ^ 16 % 256, n / 256 % 256, n % 256]

/-! ## Keccak-256 (`solana_program::keccak::hash`)

Legacy (pre-SHA-3) Keccak with rate 1088 bits / 136 bytes, `0x01` domain
padding, 256-bit output. -/

/-- The 24 Keccak-f[1600] round constants (decimal). -/
def keccakRC : List Nat :=
  [1, 32898, 9223372036854808714,
   9223372039002292224, 32907, 2147483649,
   9223372039002292353, 9223372036854808585, 138,
   136, 2147516425, 2147483658,
   2147516555, 9223372036854775947, 9223372036854808713,
   9223372036854808579, 9223372036854808578, 9223372036854775936,
   32778, 9223372039002259466, 9223372039002292353,
   9223372036854808704, 2147483649, 9223372039002292232]

/-- Keccak ρ rotation offsets, stored transposed: the offset of lane
`(x, y)` sits at index `y + 5*x`. -/
def keccakRho : List Nat :=
  [0, 36, 3, 41, 18,
   1, 44, 10, 45, 2,
   62, 6, 43, 15, 61,
   28, 55, 25, 21, 56,
   27, 20, 39, 8, 14]

/-- One round of Keccak-f[1600] (θ, ρ, π, χ, ι) on a 25-lane state
(indexed `x + 5*y`). -/
def keccakRound (A : List Nat) (rc : Nat) : List Nat :=
  let C := (List.range 5).map (fun x =>
    A.getD x 0 ^^^ A.getD (x + 5) 0 ^^^ A.getD (x + 10) 0 ^^^
      A.getD (x + 15) 0 ^^^ A.getD (x + 20) 0)
  let D := fun x => C.getD ((x + 4) % 5) 0 ^^^ rotl64 (C.getD ((x + 1) % 5) 0) 1
  let A1 := (List.range 25).map (fun i => A.getD i 0 ^^^ D (i % 5))
  let B := (List.range 25).map (fun i =>
    let x := (i % 5 + 3 * (i / 5)) % 5
    let y := i % 5
    rotl64 (A1.getD (x + 5 * y) 0) (keccakRho.getD (y + 5 * x) 0))
  let A2 := (List.range 25).map (fun i =>
    let x := i % 5
    let y := i / 5
    B.getD i 0 ^^^
      ((B.getD ((x + 1) % 5 + 5 * y) 0 ^^^ 18446744073709551615) &&&
        B.getD ((x + 2) % 5 + 5 * y) 0))
  match A2 with
  | a0 :: rest => (a0 ^^^ rc) :: rest
  | [] => []

/-- The full Keccak-f[1600] permutation: 24 rounds. -/
def keccakF (A : List Nat) : List Nat :=
  keccakRC.foldl keccakRound A

/-- XOR a 136-byte rate block into the first 17 lanes of the state. -/
def keccakXorBlock (st blk : List Nat) : List Nat :=
  (List.range 25).map (fun j =>
    if j < 17 then st.getD j 0 ^^^ le64FromBytes ((blk.drop (8 * j)).take 8)
    else st.getD j 0)

/-- Split a byte list into 136-byte chunks (`fuel` bounds the recursion
structurally; `chunk136` supplies the list length, which always
suffices). -/
def chunk136Go : Nat → List Nat → List (List Nat)
  | 0, _ => []
  | _, [] => []
  | fuel + 1, a :: rest => ((a :: rest).take 136) :: chunk136Go fuel ((a :: rest).drop 136)

/-- Split a byte list into 136-byte chunks. -/
def chunk136 (l : List Nat) : List (List Nat) :=
  chunk136Go l.length l

/-- Keccak `pad10*1` padding with the legacy `0x01` domain byte
(`0x81 = 129` when a single padding byte fits, else `0x01 … 0x80`). -/
def keccakPad (len : Nat) : List Nat :=
  let padlen := 136 - len % 136
  if padlen = 1 then [129]
  else 1 :: (List.replicate (padlen - 2) 0 ++ [128])

/-- Keccak-256 of a byte string, as its 32-byte digest. -/
def keccak256 (msg : List Nat) : List Nat :=
  let padded := msg ++ keccakPad msg.length
  let final := (chunk136 padded).foldl (fun st blk => keccakF (keccakXorBlock st blk))
    (List.replicate 25 0)
  ((final.take 4).map toLeBytes8).flatten

/-! ## SHA-256 (`solana_program::hash::hash`) -/

/-- The 64 SHA-256 round constants (decimal). -/
def shaK : List Nat :=
  [1116352408, 1899447441, 3049323471, 3921009573, 961987163,
   1508970993, 2453635748, 2870763221, 3624381080, 310598401,
   607225278, 1426881987, 1925078388, 2162078206, 2614888103,
   3248222580, 3835390401, 4022224774, 264347078, 604807628,
   770255983, 1249150122, 1555081692, 1996064986, 2554220882,
   2821834349, 2952996808, 3210313671, 3336571891, 3584528711,
   113926993, 338241895, 666307205, 773529912, 1294757372,
   1396182291, 1695183700, 1986661051, 2177026350, 2456956037,
   2730485921, 2820302411, 3259730800, 3345764771, 3516065817,
   3600352804, 4094571909, 275423344, 430227734, 506948616,
   659060556, 883997877, 958139571, 1322822218, 1537002063,
   1747873779, 1955562222, 2024104815, 2227730452, 2361852424,
   2428436474, 2756734187, 3204031479, 3329325298]

/-- SHA-256 initial hash state (decimal). -/
def shaH0 : List Nat :=
  [1779033703, 3144134277, 1013904242, 2773480762,
   1359893119, 2600822924, 528734635, 1541459225]

/-- SHA-256 padding: `0x80 = 128`, zeros, then the 64-bit big-endian bit
length. -/
def shaPad (len : Nat) : List Nat :=
  128 :: (List.replicate ((119 - len % 64) % 64) 0 ++ toBeBytes8 (8 * len))

/-- Extend the 16 message-schedule words to 64. -/
def shaExtend (w : List Nat) : List Nat :=
  (List.range 48).foldl (fun w _ =>
    let t := w.length
    let wa := w.getD (t - 15) 0
    let wb := w.getD (t - 2) 0
    let s0 := rotr32 wa 7 ^^^ rotr32 wa 18 ^^^ (wa >>> 3)
    let s1 := rotr32 wb 17 ^^^ rotr32 wb 19 ^^^ (wb >>> 10)
    w ++ [(w.getD (t - 16) 0 + s0 + w.getD (t - 7) 0 + s1) % U32]) w

/-- Compress one 64-byte block into the running hash state. -/
def shaCompress (h : List Nat) (blk : List Nat) : List Nat :=
  let w0 := (List.range 16).map (fun i => be32FromBytes ((blk.drop (4 * i)).take 4))
  let w := shaExtend w0
  let fin := (List.range 64).foldl (fun st t =>
    match st with
    | [a, b, c, d, e, f, g, hh] =>
      let bigS1 := rotr32 e 6 ^^^ (rotr32 e 11 ^^^ rotr32 e 25)
      let choose := ((e ^^^ 4294967295) &&& g) ^^^ (e &&& f)
      let t1 := (hh + bigS1 + choose + shaK.getD t 0 + w.getD t 0) % U32
      let bigS0 := rotr32 a 2 ^^^ (rotr32 a 13 ^^^ rotr32 a 22)
      let vote := (b &&& c) ^^^ ((a &&& b) ^^^ (a &&& c))
      let t2 := (bigS0 + vote) % U32
      [(t1 + t2) % U32, a, b, c, (d + t1) % U32, e, f, g]
    | other => other) h
  (List.range 8).map (fun i => (h.getD i 0 + fin.getD i 0) % U32)

/-- Split a byte list into 64-byte chunks, fuelled like `chunk136Go`. -/
def chunk64Go : Nat → List Nat → List (List Nat)
  | 0, _ => []
  | _, [] => []
  | fuel + 1, a :: rest => ((a :: rest).take 64) :: chunk64Go fuel ((a :: rest).drop 64)

/-- Split a byte list into 64-byte chunks. -/
def chunk64 (l : List Nat) : List (List Nat) :=
  chunk64Go l.length l

/-- SHA-256 of a byte string, as its 32-byte digest. -/
def sha256 (msg : List Nat) : List Nat :=
  let padded := msg ++ shaPad msg.length
  let hFin := (chunk64 padded).foldl shaCompress shaH0
  (hFin.map toBeBytes4).flatten

/-! ## Program data model (`state.rs`, `error.rs`)

Only the fields the embedded instructions read or write are carried:
account addresses, discriminators and PDA bumps are part of the host
runtime's account plumbing, which the instructions validate structurally
before the logic embedded here runs. -/

/-- Error kinds (`error.rs`, `enum YapError`). -/
inductive YapError where
  | InvalidInstruction
  | AlreadyInitialized
  | NotInitialized
  | InvalidDiscriminator
  | InvalidPda
  | Unauthorized
  | InvalidProof
  | NothingToClaim
  | AlreadyClaimed
  | InflationNotReady
  | AlreadyDistributedToday
  | ExceedsDailyAllocation
  | InsufficientBalance
  | Overflow
  | InvalidOwner
  | InvalidMint
  | InsufficientStakedBalance
  | ProofTooLong
  deriving DecidableEq, Repr

/-- Per-user claim record (`state.rs`, `struct UserClaimStatus`), sans
discriminator and bump. -/
structure UserClaimStatus where
  claimed_amount : Nat
  total_burned : Nat
  deriving DecidableEq, Repr

/-- Global configuration (`state.rs`, `struct Config`), restricted to the
fields the embedded logic touches. -/
structure Config where
  merkle_root : List Nat
  current_supply : Nat
  last_inflation_ts : Int
  last_distribution_ts : Int
  inflation_rate_bps : Nat
  deriving DecidableEq, Repr

/-- `SECONDS_PER_YEAR` (`state.rs`): 31 536 000. -/
def SECONDS_PER_YEAR : Nat := 365 * 24 * 60 * 60

/-- `MAX_PROOF_DEPTH` (`state.rs`). -/
def MAX_PROOF_DEPTH : Nat := 32

/-- The all-zero 32-byte root, meaning no entitlements published. -/
def ZERO_ROOT : List Nat := List.replicate 32 0

/-! ## Checked / saturating machine arithmetic -/

/-- `u64::checked_sub`. -/
def checkedSub64 (a b : Nat) : Option Nat :=
  if b ≤ a then some (a - b) else none

/-- `u64::checked_add`. -/
def checkedAdd64 (a b : Nat) : Option Nat :=
  if a + b < U64 then some (a + b) else none

/-- `u128::checked_mul` (operands assumed reduced mod `2^128`). -/
def checkedMul128 (a b : Nat) : Option Nat :=
  if a * b < U128 then some (a * b) else none

/-- `i64::saturating_sub`. -/
def i64SatSub (a b : Int) : Int :=
  if a - b < -(2 ^ 63) then -(2 ^ 63)
  else if 2 ^ 63 - 1 < a - b then 2 ^ 63 - 1
  else a - b

/-- The `i64`-to-`u128` `as` cast: two's-complement reinterpretation. -/
def i64AsU128 (a : Int) : Nat :=
  (a % (2 ^ 128 : Int)).toNat

/-! ## Merkle verifier of the Claim instruction (`claim.rs`) -/

/-- `LEAF_DOMAIN` (`claim.rs`): the twelve ASCII bytes of
`YAP_CLAIM_V1`. -/
def LEAF_DOMAIN : List Nat :=
  [89, 65, 80, 95, 67, 76, 65, 73, 77, 95, 86, 49]

/-- Rust `<=` on `[u8; 32]`: lexicographic byte comparison. -/
def bytesLe : List Nat → List Nat → Bool
  | [], [] => true
  | [], _ :: _ => true
  | _ :: _, [] => false
  | a :: as, b :: bs => if a < b then true else if b < a then false else bytesLe as bs

/-- `compute_leaf` (`claim.rs` lines 241–247):
`keccak256(LEAF_DOMAIN ‖ wallet ‖ amount.to_le_bytes())`. -/
def claimComputeLeaf (wallet : List Nat) (amount : Nat) : List Nat :=
  keccak256 (LEAF_DOMAIN ++ wallet ++ toLeBytes8 amount)

/-- The folding loop of `verify_proof` (`claim.rs` lines 253–266): the
smaller digest (by byte-lexicographic order) is hashed first. -/
def foldProof : List (List Nat) → List Nat → List Nat
  | [], computed => computed
  | e :: rest, computed =>
    foldProof rest
      (if bytesLe computed e then keccak256 (computed ++ e)
       else keccak256 (e ++ computed))

/-- `verify_proof` (`claim.rs` lines 250–269). -/
def claimVerifyProof (proof : List (List Nat)) (root leaf : List Nat) : Bool :=
  foldProof proof leaf == root

/-! ## Standalone Merkle helper (`utils/merkle.rs`)

This module uses `solana_program::hash::hash`, i.e. SHA-256, and hashes
`wallet ‖ amount` with no domain separator. -/

/-- `compute_leaf` (`utils/merkle.rs` lines 4–9):
`sha256(wallet ‖ amount.to_le_bytes())`. -/
def merkleComputeLeaf (wallet : List Nat) (amount : Nat) : List Nat :=
  sha256 (wallet ++ toLeBytes8 amount)

/-! ## Spec-side Merkle verifier

Modelled from the spec's words (§4.1): leaf digest
`hash(domain_separator ‖ recipient_identity_bytes ‖ amount_le_u64)`, and
folding `hash(min(computed, sibling) ‖ max(computed, sibling))` under
unsigned byte-array comparison.  Used only to compare against the
source-derived functions above. -/

/-- The smaller of two digests under unsigned byte-array comparison. -/
def minBytes (a b : List Nat) : List Nat := if bytesLe a b then a else b

/-- The larger of two digests under unsigned byte-array comparison. -/
def maxBytes (a b : List Nat) : List Nat := if bytesLe a b then b else a

/-- Spec-side leaf digest (§4.1). -/
def specLeaf (wallet : List Nat) (amount : Nat) : List Nat :=
  keccak256 (LEAF_DOMAIN ++ wallet ++ toLeBytes8 amount)

/-- Spec-side proof folding (§4.1): `hash(min ‖ max)` at every step. -/
def specFold : List (List Nat) → List Nat → List Nat
  | [], computed => computed
  | s :: rest, computed =>
    specFold rest (keccak256 (minBytes computed s ++ maxBytes computed s))

/-! ## Claim instruction core (`claim.rs` `process`)

The embedded pipeline keeps the source's check order: zero-amount gate
(line 57), proof-length gate (line 63), unset-root gate (line 95), proof
verification (line 133), lazily-created claim record (lines 146–184) and
the delta computation and absolute set (lines 186–230).  Host-level
account checks (signer, PDA derivations, ownership, rent) are validated
before this logic and are outside the embedded core.  On success the
result carries the updated record and the amount moved from the pending
pool to the recipient. -/

/-- Core of `process` (`claim.rs`).  `status = none` models an empty
(not yet created) `UserClaimStatus` PDA; a fresh record starts with
`claimed_amount = 0` (line 170). -/
def claimProcess (wallet : List Nat) (amount : Nat) (proof : List (List Nat))
    (merkle_root : List Nat) (status : Option UserClaimStatus) :
    Except YapError (UserClaimStatus × Nat) :=
  if amount = 0 then .error .InvalidInstruction
  else if MAX_PROOF_DEPTH < proof.length then .error .ProofTooLong
  else if merkle_root = ZERO_ROOT then .error .NotInitialized
  else if ¬ claimVerifyProof proof merkle_root (claimComputeLeaf wallet amount) then
    .error .InvalidProof
  else
    let st := status.getD ⟨0, 0⟩
    match checkedSub64 amount st.claimed_amount with
    | none => .error .AlreadyClaimed
    | some claimable =>
      if claimable = 0 then .error .AlreadyClaimed
      else .ok ({ st with claimed_amount := amount }, claimable)

/-- A sequence of Claim calls by one recipient: each element is
`(amount, proof, merkle_root)` (the root current at that call).  A failed
call leaves the record unchanged and transfers nothing (the host rolls
back the transaction); the second component accumulates the transferred
deltas. -/
def runClaims (wallet : List Nat) (st : UserClaimStatus) :
    List (Nat × List (List Nat) × List Nat) → UserClaimStatus × Nat
  | [] => (st, 0)
  | (a, p, r) :: rest =>
    match claimProcess wallet a p r (some st) with
    | .error _ => runClaims wallet st rest
    | .ok (st', d) =>
      let t := runClaims wallet st' rest
      (t.1, d + t.2)

/-! ## Distribute instruction core (`distribute.rs` `process`) -/

/-- The availability computation (`distribute.rs` lines 97, 105–109):
`elapsed` is `now.saturating_sub(last_distribution_ts)` cast `as u128`
(two's complement), multiplied into the vault balance with
`checked_mul(..).unwrap_or(0)`, divided by `SECONDS_PER_YEAR`
(`checked_div` by a nonzero constant never fails), then cast `as u64`. -/
def availableDist (elapsed : Int) (vault_balance : Nat) : Nat :=
  ((checkedMul128 (i64AsU128 elapsed) vault_balance).getD 0 / SECONDS_PER_YEAR) % U64

/-- Core of `process` (`distribute.rs` lines 93–172).  The result carries
the updated config and `some amount` when the token transfer is invoked
(`amount > 0`, lines 130–157), `none` when it is skipped. -/
def distributeProcess (config : Config) (vault_balance : Nat) (amount : Nat)
    (new_root : List Nat) (now : Int) : Except YapError (Config × Option Nat) :=
  let elapsed := i64SatSub now config.last_distribution_ts
  let available := availableDist elapsed vault_balance
  if available < amount then .error .ExceedsDailyAllocation
  else
    .ok ({ config with merkle_root := new_root, last_distribution_ts := now },
         if 0 < amount then some amount else none)

/-! ## TriggerInflation instruction core (`trigger_inflation.rs` `process`) -/

/-- The accrual computation (`trigger_inflation.rs` lines 69–77):
`(supply as u128).checked_mul(bps).checked_mul(elapsed).checked_div(10000)
.checked_div(SECONDS_PER_YEAR) as u64`.  `elapsedU` is the (positive)
elapsed time; the divisions by nonzero constants never fail. -/
def inflationAmount (supply bps elapsedU : Nat) : Except YapError Nat :=
  match checkedMul128 supply bps with
  | none => .error .Overflow
  | some x =>
    match checkedMul128 x elapsedU with
    | none => .error .Overflow
    | some y => .ok (y / 10000 / SECONDS_PER_YEAR % U64)

/-- Core of `process` (`trigger_inflation.rs` lines 59–116).  The mint CPI
and the `checked_add` on the supply both happen inside one transaction, so
an `Overflow` on the add aborts the whole call with no state change.  On
success the result carries the updated config and the minted amount. -/
def triggerInflationProcess (config : Config) (now : Int) :
    Except YapError (Config × Nat) :=
  let elapsed := i64SatSub now config.last_inflation_ts
  if elapsed ≤ 0 then .error .InflationNotReady
  else
    match inflationAmount config.current_supply config.inflation_rate_bps elapsed.toNat with
    | .error e => .error e
    | .ok amt =>
      if amt = 0 then .error .InflationNotReady
      else
        match checkedAdd64 config.current_supply amt with
        | none => .error .Overflow
        | some s =>
          .ok ({ config with current_supply := s, last_inflation_ts := now }, amt)

/-- Validity of one Claim call's inputs: proof within the depth bound,
root published (nonzero) and the Merkle proof verifying for this
recipient's leaf. -/
def validOp (wallet : List Nat) (op : Nat × List (List Nat) × List Nat) : Prop :=
  op.2.1.length ≤ MAX_PROOF_DEPTH ∧ op.2.2 ≠ ZERO_ROOT ∧
    claimVerifyProof op.2.1 op.2.2 (claimComputeLeaf wallet op.1) = true

instance (wallet : List Nat) (op : Nat × List (List Nat) × List Nat) :
    Decidable (validOp wallet op) := by
  unfold validOp; infer_instance

/-- The claim record after one call of the sequence: unchanged on a
failed call, the returned record on a successful one. -/
def stepStatus (wallet : List Nat) (st : UserClaimStatus)
    (op : Nat × List (List Nat) × List Nat) : UserClaimStatus :=
  match claimProcess wallet op.1 op.2.1 op.2.2 (some st) with
  | .error _ => st
  | .ok (st', _) => st'

/-! ## Helper lemmas -/

/-- The code's sorted folding agrees with the spec's min/max folding. -/
theorem foldProof_eq_specFold (p : List (List Nat)) (c : List Nat) :
    foldProof p c = specFold p c := by
  induction p generalizing c with
  | nil => rfl
  | cons e rest ih =>
    by_cases h : bytesLe c e
    · simp [foldProof, specFold, minBytes, maxBytes, h, ih]
    · simp [foldProof, specFold, minBytes, maxBytes, h, ih]

/-- Characterization of the delta step once the input gates pass. -/
theorem claimProcess_delta (wallet : List Nat) (amount : Nat)
    (proof : List (List Nat)) (root : List Nat) (status : Option UserClaimStatus)
    (hamt : amount ≠ 0) (hlen : ¬ MAX_PROOF_DEPTH < proof.length)
    (hroot : root ≠ ZERO_ROOT)
    (hproof : claimVerifyProof proof root (claimComputeLeaf wallet amount) = true) :
    claimProcess wallet amount proof root status =
      if (status.getD ⟨0, 0⟩).claimed_amount < amount then
        .ok ({ status.getD ⟨0, 0⟩ with claimed_amount := amount },
             amount - (status.getD ⟨0, 0⟩).claimed_amount)
      else .error YapError.AlreadyClaimed := by
  unfold claimProcess
  rw [if_neg hamt, if_neg hlen, if_neg hroot, if_neg (by simp [hproof])]
  unfold checkedSub64
  by_cases h1 : (status.getD ⟨0, 0⟩).claimed_amount ≤ amount
  · by_cases h2 : amount - (status.getD ⟨0, 0⟩).claimed_amount = 0
    · have h3 : ¬ (status.getD ⟨0, 0⟩).claimed_amount < amount := by omega
      simp [h1, h2, h3]
    · have h3 : (status.getD ⟨0, 0⟩).claimed_amount < amount := by omega
      simp [h1, h2, h3]
  · have h3 : ¬ (status.getD ⟨0, 0⟩).claimed_amount < amount := by omega
    simp [h1, h3]

/-- Inversion of a successful Claim: every gate passed, the record was
set absolutely and the transfer is the delta. -/
theorem claimProcess_ok_inv {wallet : List Nat} {amount : Nat}
    {proof : List (List Nat)} {root : List Nat} {status : Option UserClaimStatus}
    {st' : UserClaimStatus} {d : Nat}
    (h : claimProcess wallet amount proof root status = .ok (st', d)) :
    amount ≠ 0 ∧ proof.length ≤ MAX_PROOF_DEPTH ∧ root ≠ ZERO_ROOT ∧
    claimVerifyProof proof root (claimComputeLeaf wallet amount) = true ∧
    (status.getD ⟨0, 0⟩).claimed_amount < amount ∧
    st' = { status.getD ⟨0, 0⟩ with claimed_amount := amount } ∧
    d = amount - (status.getD ⟨0, 0⟩).claimed_amount := by
  unfold claimProcess at h
  split at h
  · cases h
  split at h
  · cases h
  split at h
  · cases h
  split at h
  · cases h
  rename_i hamt hlen hroot hver
  refine ⟨hamt, by omega, hroot, by simpa using hver, ?_⟩
  revert h
  unfold checkedSub64
  by_cases h1 : (status.getD ⟨0, 0⟩).claimed_amount ≤ amount
  · by_cases h2 : amount - (status.getD ⟨0, 0⟩).claimed_amount = 0
    · intro h; simp [h1, h2] at h
    · intro h
      simp only [h1, if_true, h2, if_false] at h
      have h' := Except.ok.inj h
      exact ⟨by omega, (congrArg Prod.fst h').symm, (congrArg Prod.snd h').symm⟩
  · intro h; simp [h1] at h

/-- A positive saturating difference means the minuend is larger. -/
theorem i64SatSub_pos {a b : Int} (h : 0 < i64SatSub a b) : b < a := by
  unfold i64SatSub at h
  split at h
  · omega
  · split at h <;> omega

/-- The claim record of one sequence step is `stepStatus`. -/
theorem runClaims_cons_fst (wallet : List Nat) (st : UserClaimStatus)
    (a : Nat) (p : List (List Nat)) (r : List Nat)
    (rest : List (Nat × List (List Nat) × List Nat)) :
    (runClaims wallet st ((a, p, r) :: rest)).1 =
      (runClaims wallet (stepStatus wallet st (a, p, r)) rest).1 := by
  unfold stepStatus
  cases h : claimProcess wallet a p r (some st) with
  | error e => simp [runClaims, h]
  | ok pr => obtain ⟨st', d⟩ := pr; simp [runClaims, h]

/-- One step never decreases the stored cumulative amount. -/
theorem stepStatus_mono (wallet : List Nat) (st : UserClaimStatus)
    (op : Nat × List (List Nat) × List Nat) :
    st.claimed_amount ≤ (stepStatus wallet st op).claimed_amount := by
  unfold stepStatus
  cases h : claimProcess wallet op.1 op.2.1 op.2.2 (some st) with
  | error e => exact le_refl _
  | ok pr =>
    obtain ⟨st', d⟩ := pr
    have hinv := claimProcess_ok_inv h
    simp only [Option.getD] at hinv
    rw [hinv.2.2.2.2.2.1]
    exact le_of_lt hinv.2.2.2.2.1

/-- A valid step from a record at or below the proven entitlement leaves
the record exactly at that entitlement, whether the call succeeds (strict
increase) or fails (`AlreadyClaimed` at equality, or the zero-amount
gate). -/
theorem stepStatus_claimed (wallet : List Nat) (st : UserClaimStatus)
    (a : Nat) (p : List (List Nat)) (r : List Nat)
    (hvalid : validOp wallet (a, p, r)) (hle : st.claimed_amount ≤ a) :
    (stepStatus wallet st (a, p, r)).claimed_amount = a := by
  obtain ⟨hlen, hroot, hver⟩ := hvalid
  unfold stepStatus
  by_cases ha : a = 0
  · subst ha
    rw [show claimProcess wallet 0 p r (some st) = Except.error YapError.InvalidInstruction from by
      unfold claimProcess; rw [if_pos rfl]]
    show st.claimed_amount = 0
    omega
  · rw [claimProcess_delta wallet a p r (some st) ha (by simpa using hlen) hroot hver]
    by_cases hlt : st.claimed_amount < a
    · rw [if_pos (by simpa using hlt)]
    · rw [if_neg (by simpa using hlt)]
      show st.claimed_amount = a
      omega

/-- Monotonicity of the stored cumulative amount over any sequence. -/
theorem runClaims_mono (wallet : List Nat)
    (ops : List (Nat × List (List Nat) × List Nat)) (st : UserClaimStatus) :
    st.claimed_amount ≤ (runClaims wallet st ops).1.claimed_amount := by
  induction ops generalizing st with
  | nil => exact le_refl _
  | cons op rest ih =>
    obtain ⟨a, p, r⟩ := op
    rw [runClaims_cons_fst]
    exact le_trans (stepStatus_mono wallet st (a, p, r)) (ih _)

/-- The transferred total telescopes: it is the growth of the record. -/
theorem runClaims_total (wallet : List Nat)
    (ops : List (Nat × List (List Nat) × List Nat)) (st : UserClaimStatus) :
    (runClaims wallet st ops).2 =
      (runClaims wallet st ops).1.claimed_amount - st.claimed_amount := by
  induction ops generalizing st with
  | nil => simp [runClaims]
  | cons op rest ih =>
    obtain ⟨a, p, r⟩ := op
    unfold runClaims
    cases h : claimProcess wallet a p r (some st) with
    | error e => rw [ih st]
    | ok pr =>
      obtain ⟨st', d⟩ := pr
      have hinv := claimProcess_ok_inv h
      simp only [Option.getD] at hinv
      have hd : d = a - st.claimed_amount := hinv.2.2.2.2.2.2
      have hst : st'.claimed_amount = a := by rw [hinv.2.2.2.2.2.1]
      have hlt : st.claimed_amount < a := hinv.2.2.2.2.1
      have hmono := runClaims_mono wallet rest st'
      simp only []
      rw [ih st']
      omega

/-- After the `(k+1)`-st call of a valid, entitlement-sorted sequence the
record holds exactly the `(k+1)`-st entitlement. -/
theorem runClaims_tracks (wallet : List Nat)
    (ops : List (Nat × List (List Nat) × List Nat)) (st : UserClaimStatus)
    (hvalid : ∀ op ∈ ops, validOp wallet op)
    (hsorted : List.Sorted (· ≤ ·) (ops.map (·.1)))
    (hle : ∀ a ∈ ops.map (·.1), st.claimed_amount ≤ a) :
    ∀ k, (hk : k < ops.length) →
      (runClaims wallet st (ops.take (k + 1))).1.claimed_amount = (ops.get ⟨k, hk⟩).1 := by
  induction ops generalizing st with
  | nil => intro k hk; cases hk
  | cons op rest ih =>
    obtain ⟨a, p, r⟩ := op
    intro k hk
    have hstep : (stepStatus wallet st (a, p, r)).claimed_amount = a :=
      stepStatus_claimed wallet st a p r (hvalid _ (by simp))
        (hle a (by simp))
    cases k with
    | zero =>
      rw [show ((a, p, r) :: rest).take 1 = [(a, p, r)] from rfl, runClaims_cons_fst]
      simpa [runClaims] using hstep
    | succ k =>
      rw [show ((a, p, r) :: rest).take (k + 1 + 1) = (a, p, r) :: rest.take (k + 1) from rfl,
        runClaims_cons_fst]
      have hsorted' : List.Sorted (· ≤ ·) (rest.map (·.1)) :=
        (List.sorted_cons.mp (by simpa using hsorted)).2
      have hrel : ∀ b ∈ rest.map (·.1), a ≤ b :=
        (List.sorted_cons.mp (by simpa using hsorted)).1
      have hle' : ∀ b ∈ rest.map (·.1), (stepStatus wallet st (a, p, r)).claimed_amount ≤ b := by
        intro b hb
        rw [hstep]
        exact hrel b hb
      exact ih (stepStatus wallet st (a, p, r))
        (fun op hop => hvalid op (by simp [hop])) hsorted' hle' k (by simpa using hk)

/-! ## Claim theorems -/

/-- C7: the leaf digest verified by Claim is
`keccak256(domain ‖ recipient ‖ amount_le_u64)`; folding combines
`hash(min(computed, sibling) ‖ max(computed, sibling))` under unsigned
byte-array comparison for each sibling in proof order; verification
succeeds iff the final folded value equals the root exactly. -/
theorem c7_merkle_verifier :
    (∀ wallet amount, claimComputeLeaf wallet amount = specLeaf wallet amount) ∧
    (∀ proof root leaf,
      claimVerifyProof proof root leaf = true ↔ specFold proof leaf = root) := by
  constructor
  · intro wallet amount
    rfl
  · intro proof root leaf
    unfold claimVerifyProof
    rw [foldProof_eq_specFold]
    exact beq_iff_eq

/-- C7 witness: a concrete single-sibling verification, through the
theorem's iff. -/
theorem c7_witness :
    claimVerifyProof [ZERO_ROOT]
      (keccak256 (minBytes (claimComputeLeaf ZERO_ROOT 7) ZERO_ROOT ++
        maxBytes (claimComputeLeaf ZERO_ROOT 7) ZERO_ROOT))
      (claimComputeLeaf ZERO_ROOT 7) = true :=
  (c7_merkle_verifier.2 [ZERO_ROOT] _ (claimComputeLeaf ZERO_ROOT 7)).mpr rfl

/-- C10 counterexample: the standalone helper and the Claim instruction's
leaf function disagree at the zero wallet and amount `0` (the former is
`sha256(wallet ‖ amount)`, the latter `keccak256(domain ‖ wallet ‖
amount)`). -/
theorem c10_counterexample :
    merkleComputeLeaf (List.replicate 32 0) 0 ≠ claimComputeLeaf (List.replicate 32 0) 0 := by
  decide

/-- C10 amended: the two embedded leaf functions are NOT extensionally
equal — `utils/merkle.rs` hashes `wallet ‖ amount_le` with SHA-256 and no
domain separator, `claim.rs` hashes `YAP_CLAIM_V1 ‖ wallet ‖ amount_le`
with Keccak-256, and the digests disagree at the zero wallet with
amount `1`. -/
theorem c10_leaf_functions_differ :
    (∀ wallet amount, merkleComputeLeaf wallet amount = sha256 (wallet ++ toLeBytes8 amount)) ∧
    (∀ wallet amount,
      claimComputeLeaf wallet amount = keccak256 (LEAF_DOMAIN ++ wallet ++ toLeBytes8 amount)) ∧
    merkleComputeLeaf (List.replicate 32 0) 1 ≠ claimComputeLeaf (List.replicate 32 0) 1 := by
  refine ⟨fun w a => rfl, fun w a => rfl, by decide⟩

/-- C3: the inflation limiter's final `as u64` narrowing silently wraps.
At supply `2^63`, rate `10000` bps and elapsed `63072004` s (two years
and four seconds) the code returns `1169884834710`, while the exact
mathematical floor is `2^64 + 1169884834710`; the call does not fail
with `Overflow`. -/
theorem c3_narrowing_truncates :
    inflationAmount (2 ^ 63) 10000 63072004 = .ok 1169884834710 ∧
    2 ^ 63 * 10000 * 63072004 / 10000 / SECONDS_PER_YEAR = 2 ^ 64 + 1169884834710 ∧
    inflationAmount (2 ^ 63) 10000 63072004 ≠ .error YapError.Overflow := by
  refine ⟨rfl, by norm_num [SECONDS_PER_YEAR], fun h => ?_⟩
  rw [show inflationAmount (2 ^ 63) 10000 63072004 = .ok 1169884834710 from rfl] at h
  cases h

/-- C5: TriggerInflation at supply `2^62`, rate `10000` bps,
`last_inflation_ts = 0` and `now = 126144004` (four years and four
seconds) SUCCEEDS and mints `584942417355`, although the exact
mathematical floor is `2^64 + 584942417355` — the minted amount is the
floor reduced mod `2^64`, not the floor.  The spec's own happy-path
example (one year at 500 bps on supply `10^18`) does mint the exact
floor `5×10^16`. -/
theorem c5_wrapped_mint :
    triggerInflationProcess ⟨ZERO_ROOT, 2 ^ 62, 0, 0, 10000⟩ 126144004 =
      .ok (⟨ZERO_ROOT, 2 ^ 62 + 584942417355, 126144004, 0, 10000⟩, 584942417355) ∧
    2 ^ 62 * 10000 * 126144004 / 10000 / SECONDS_PER_YEAR = 2 ^ 64 + 584942417355 ∧
    triggerInflationProcess ⟨ZERO_ROOT, 10 ^ 18, 0, 0, 500⟩ 31536000 =
      .ok (⟨ZERO_ROOT, 10 ^ 18 + 5 * 10 ^ 16, 31536000, 0, 500⟩, 5 * 10 ^ 16) := by
  refine ⟨rfl, by norm_num [SECONDS_PER_YEAR], rfl⟩

/-- C4: with a rewound clock (`now = 999 < last_distribution_ts = 1000`,
so elapsed is `-1`) and vault balance `1`, the `i64`-to-`u128` cast
sign-extends, the `checked_mul` by `1` does NOT overflow, and the
computed `available` is a huge junk value instead of `0`; a Distribute
of amount `1 > 0` is then accepted, not rejected. -/
theorem c4_negative_elapsed_junk :
    i64SatSub 999 1000 = -1 ∧
    availableDist (-1) 1 = 1328764554342459310 ∧
    (1328764554342459310 : Nat) ≠ 0 ∧
    distributeProcess ⟨ZERO_ROOT, 0, 0, 1000, 0⟩ 1 1 ZERO_ROOT 999 =
      .ok (⟨ZERO_ROOT, 0, 0, 999, 0⟩, some 1) := by
  exact ⟨rfl, rfl, by norm_num, rfl⟩

/-- C6: a Distribute request is rejected wholesale with
`ExceedsDailyAllocation` (no state change, no clamping) exactly when the
requested amount exceeds the computed `available`; otherwise it succeeds,
the transfer is invoked iff the amount is nonzero (and then moves exactly
the requested amount), and the root and the distribution timestamp are
always overwritten. -/
theorem c6_distribute_gate (config : Config) (vault_balance amount : Nat)
    (new_root : List Nat) (now : Int) :
    (availableDist (i64SatSub now config.last_distribution_ts) vault_balance < amount →
      distributeProcess config vault_balance amount new_root now =
        .error YapError.ExceedsDailyAllocation) ∧
    (amount ≤ availableDist (i64SatSub now config.last_distribution_ts) vault_balance →
      distributeProcess config vault_balance amount new_root now =
        .ok ({ config with merkle_root := new_root, last_distribution_ts := now },
             if 0 < amount then some amount else none)) := by
  constructor
  · intro h
    unfold distributeProcess
    rw [if_pos h]
  · intro h
    unfold distributeProcess
    rw [if_neg (by omega)]

/-- C6 witness: with an empty vault and elapsed `0`, requesting `1` is
rejected and requesting `0` succeeds as a pure root/timestamp refresh
with the transfer skipped. -/
theorem c6_witness :
    distributeProcess ⟨ZERO_ROOT, 0, 0, 0, 0⟩ 0 1 (List.replicate 32 1) 0 =
      .error YapError.ExceedsDailyAllocation ∧
    distributeProcess ⟨ZERO_ROOT, 0, 0, 0, 0⟩ 0 0 (List.replicate 32 1) 0 =
      .ok (⟨List.replicate 32 1, 0, 0, 0, 0⟩, none) := by
  constructor
  · exact (c6_distribute_gate ⟨ZERO_ROOT, 0, 0, 0, 0⟩ 0 1 (List.replicate 32 1) 0).1
      (by decide)
  · exact (c6_distribute_gate ⟨ZERO_ROOT, 0, 0, 0, 0⟩ 0 0 (List.replicate 32 1) 0).2
      (Nat.zero_le _)

/-- C8 counterexample: a Claim call with a 33-element proof but a zero
amount fails with `InvalidInstruction` (the zero-amount gate fires
first), not with `ProofTooLong`, refuting the claim's universal "fails
with ProofTooLong" for every over-long proof. -/
theorem c8_counterexample :
    MAX_PROOF_DEPTH < (List.replicate 33 ZERO_ROOT).length ∧
    claimProcess (List.replicate 32 0) 0 (List.replicate 33 ZERO_ROOT) ZERO_ROOT none =
      .error YapError.InvalidInstruction ∧
    YapError.InvalidInstruction ≠ YapError.ProofTooLong := by
  refine ⟨by norm_num [MAX_PROOF_DEPTH], ?_, by decide⟩
  unfold claimProcess
  rw [if_pos rfl]

/-- C8 amended: for every Claim call with a nonzero amount, a proof
longer than 32 elements fails with `ProofTooLong` regardless of the
proof's digests, the root and the stored record (so before any folding,
verification or state change), and a proof of length ≤ 32 never trips
this gate. -/
theorem c8_proof_length_gate (wallet : List Nat) (amount : Nat)
    (proof : List (List Nat)) (root : List Nat) (status : Option UserClaimStatus)
    (hamt : amount ≠ 0) :
    (MAX_PROOF_DEPTH < proof.length →
      claimProcess wallet amount proof root status = .error YapError.ProofTooLong) ∧
    (proof.length ≤ MAX_PROOF_DEPTH →
      claimProcess wallet amount proof root status ≠ .error YapError.ProofTooLong) := by
  constructor
  · intro h
    unfold claimProcess
    rw [if_neg hamt, if_pos h]
  · intro h hc
    unfold claimProcess at hc
    rw [if_neg hamt, if_neg (by omega)] at hc
    split at hc
    · cases hc
    split at hc
    · cases hc
    simp only [] at hc
    split at hc
    · cases hc
    split at hc
    · cases hc
    · cases hc

/-- C8 witness: a 33-element proof with amount `5` trips the gate; an
empty proof with amount `5` never yields `ProofTooLong`. -/
theorem c8_witness :
    claimProcess (List.replicate 32 0) 5 (List.replicate 33 ZERO_ROOT) ZERO_ROOT none =
      .error YapError.ProofTooLong ∧
    claimProcess (List.replicate 32 0) 5 [] ZERO_ROOT none ≠
      .error YapError.ProofTooLong := by
  constructor
  · exact (c8_proof_length_gate (List.replicate 32 0) 5 (List.replicate 33 ZERO_ROOT)
      ZERO_ROOT none (by norm_num)).1 (by norm_num [MAX_PROOF_DEPTH])
  · exact (c8_proof_length_gate (List.replicate 32 0) 5 [] ZERO_ROOT none
      (by norm_num)).2 (by norm_num [MAX_PROOF_DEPTH])

/-- C1 counterexample: presenting entitlement `0` with a valid
(empty) proof against the root equal to the zero-amount leaf, with
nothing claimed yet, has `delta = 0`, but the call fails with
`InvalidInstruction` (the up-front zero-amount gate), not with
`AlreadyClaimed` as the claim states. -/
theorem c1_counterexample :
    claimVerifyProof [] (claimComputeLeaf (List.replicate 32 0) 0)
      (claimComputeLeaf (List.replicate 32 0) 0) = true ∧
    claimComputeLeaf (List.replicate 32 0) 0 ≠ ZERO_ROOT ∧
    claimProcess (List.replicate 32 0) 0 [] (claimComputeLeaf (List.replicate 32 0) 0) none =
      .error YapError.InvalidInstruction ∧
    YapError.InvalidInstruction ≠ YapError.AlreadyClaimed := by
  refine ⟨by decide, by decide, ?_, by decide⟩
  unfold claimProcess
  rw [if_pos rfl]

/-- C1 amended: for every Claim call presenting a NONZERO total
entitlement with a valid proof (within the depth bound) against the
current nonzero root — if the stored cumulative amount is at or above the
entitlement (strictly above, or delta zero) the call fails with
`AlreadyClaimed` and transfers nothing; otherwise exactly the delta is
transferred and the record is set absolutely to the entitlement. -/
theorem c1_claim_delta (wallet : List Nat) (amount : Nat) (proof : List (List Nat))
    (root : List Nat) (status : Option UserClaimStatus)
    (hamt : amount ≠ 0) (hlen : proof.length ≤ MAX_PROOF_DEPTH)
    (hroot : root ≠ ZERO_ROOT)
    (hproof : claimVerifyProof proof root (claimComputeLeaf wallet amount) = true) :
    (amount ≤ (status.getD ⟨0, 0⟩).claimed_amount →
      claimProcess wallet amount proof root status = .error YapError.AlreadyClaimed) ∧
    ((status.getD ⟨0, 0⟩).claimed_amount < amount →
      claimProcess wallet amount proof root status =
        .ok ({ status.getD ⟨0, 0⟩ with claimed_amount := amount },
             amount - (status.getD ⟨0, 0⟩).claimed_amount)) := by
  rw [claimProcess_delta wallet amount proof root status hamt (by omega) hroot hproof]
  constructor
  · intro h
    rw [if_neg (by omega)]
  · intro h
    rw [if_pos h]

/-- C1 witness: the spec's own scenario — record at `100`, proven
entitlement `250`: exactly `150` is transferred and the record becomes
`250`. -/
theorem c1_witness :
    claimProcess (List.replicate 32 0) 250 []
      (claimComputeLeaf (List.replicate 32 0) 250) (some ⟨100, 0⟩) =
      .ok (⟨250, 0⟩, 150) :=
  (c1_claim_delta (List.replicate 32 0) 250 []
    (claimComputeLeaf (List.replicate 32 0) 250) (some ⟨100, 0⟩)
    (by norm_num) (by norm_num [MAX_PROOF_DEPTH]) (by decide) (by decide)).2 (by decide)

/-- C9 counterexample: a zero-amount Distribute with a rewound host clock
(`now = 50`, stored watermark `100`) succeeds and sets
`last_distribution_ts` BACK to `50`, so the watermark is not
monotonically non-decreasing for every host-supplied clock value. -/
theorem c9_counterexample :
    distributeProcess ⟨ZERO_ROOT, 0, 0, 100, 0⟩ 0 0 ZERO_ROOT 50 =
      .ok (⟨ZERO_ROOT, 0, 0, 50, 0⟩, none) ∧
    (50 : Int) < 100 := by
  exact ⟨rfl, by norm_num⟩

/-- C9 amended: a successful TriggerInflation always advances
`last_inflation_ts` strictly (its elapsed-positivity gate enforces
`now > last`); a successful Distribute sets `last_distribution_ts := now`,
which is non-decreasing whenever the host clock has not been rewound
below the stored watermark (a zero-amount Distribute with a rewound
clock does rewind it). -/
theorem c9_watermarks :
    (∀ config now c' amt,
      triggerInflationProcess config now = .ok (c', amt) →
      c'.last_inflation_ts = now ∧ config.last_inflation_ts < now) ∧
    (∀ config vb amount nr now c' t,
      config.last_distribution_ts ≤ now →
      distributeProcess config vb amount nr now = .ok (c', t) →
      c'.last_distribution_ts = now ∧
        config.last_distribution_ts ≤ c'.last_distribution_ts) := by
  constructor
  · intro config now c' amt h
    unfold triggerInflationProcess at h
    simp only [] at h
    by_cases hel : i64SatSub now config.last_inflation_ts ≤ 0
    · rw [if_pos hel] at h; cases h
    · rw [if_neg hel] at h
      cases hia : inflationAmount config.current_supply config.inflation_rate_bps
          (i64SatSub now config.last_inflation_ts).toNat with
      | error e => simp only [hia] at h; cases h
      | ok amtX =>
        simp only [hia] at h
        by_cases hz : amtX = 0
        · rw [if_pos hz] at h; cases h
        · rw [if_neg hz] at h
          cases hca : checkedAdd64 config.current_supply amtX with
          | none => simp only [hca] at h; cases h
          | some s =>
            simp only [hca] at h
            have h' := Except.ok.inj h
            have hc : ({ config with current_supply := s, last_inflation_ts := now } : Config)
                = c' := congrArg Prod.fst h'
            exact ⟨by rw [← hc], i64SatSub_pos (by omega)⟩
  · intro config vb amount nr now c' t hle h
    unfold distributeProcess at h
    simp only [] at h
    by_cases hav : availableDist (i64SatSub now config.last_distribution_ts) vb < amount
    · rw [if_pos hav] at h; cases h
    · rw [if_neg hav] at h
      have h' := Except.ok.inj h
      have hc : ({ config with merkle_root := nr, last_distribution_ts := now } : Config) = c' :=
        congrArg Prod.fst h'
      constructor
      · rw [← hc]
      · rw [← hc]
        exact hle

/-- C9 witness: a concrete successful TriggerInflation strictly advances
its watermark, and a concrete successful Distribute with a non-rewound
clock keeps its watermark non-decreasing. -/
theorem c9_witness :
    ((⟨ZERO_ROOT, 315360010000, 1, 0, 10000⟩ : Config).last_inflation_ts = 1 ∧
      (⟨ZERO_ROOT, 315360000000, 0, 0, 10000⟩ : Config).last_inflation_ts < 1) ∧
    ((⟨ZERO_ROOT, 7, 0, 3, 0⟩ : Config).last_distribution_ts = 3 ∧
      (⟨ZERO_ROOT, 7, 0, 2, 0⟩ : Config).last_distribution_ts ≤
        (⟨ZERO_ROOT, 7, 0, 3, 0⟩ : Config).last_distribution_ts) :=
  ⟨c9_watermarks.1 ⟨ZERO_ROOT, 315360000000, 0, 0, 10000⟩ 1
      ⟨ZERO_ROOT, 315360010000, 1, 0, 10000⟩ 10000 rfl,
   c9_watermarks.2 ⟨ZERO_ROOT, 7, 0, 2, 0⟩ 0 0 ZERO_ROOT 3
      ⟨ZERO_ROOT, 7, 0, 3, 0⟩ none (by norm_num) rfl⟩

/-- C2: across every sequence of Claim calls by one recipient the stored
cumulative amount never decreases; for valid proofs over non-decreasing
entitlements, starting from a fresh (zero) record, the record equals the
entitlement just proven after each call and the transferred total equals
the final entitlement; and replaying the exact
`(entitlement, proof, root)` of a successful call — immediately or from
any later record state — fails with `AlreadyClaimed` (so transfers
nothing). -/
theorem c2_cumulative_accounting :
    (∀ wallet st ops, st.claimed_amount ≤ (runClaims wallet st ops).1.claimed_amount) ∧
    (∀ wallet tb (ops : List (Nat × List (List Nat) × List Nat)),
      (∀ op ∈ ops, validOp wallet op) →
      List.Sorted (· ≤ ·) (ops.map (·.1)) →
      (∀ k, (hk : k < ops.length) →
        (runClaims wallet ⟨0, tb⟩ (ops.take (k + 1))).1.claimed_amount =
          (ops.get ⟨k, hk⟩).1) ∧
      ∀ hne : ops ≠ [], (runClaims wallet ⟨0, tb⟩ ops).2 = (ops.getLast hne).1) ∧
    (∀ wallet a p r st st' d st2,
      claimProcess wallet a p r (some st) = .ok (st', d) →
      st'.claimed_amount ≤ st2.claimed_amount →
      claimProcess wallet a p r (some st2) = .error YapError.AlreadyClaimed) := by
  refine ⟨fun wallet st ops => runClaims_mono wallet ops st, ?_, ?_⟩
  · intro wallet tb ops hvalid hsorted
    have htracks := runClaims_tracks wallet ops ⟨0, tb⟩ hvalid hsorted
      (fun a _ => Nat.zero_le a)
    refine ⟨htracks, ?_⟩
    intro hne
    have hlen : 0 < ops.length := List.length_pos.mpr hne
    have h1 := htracks (ops.length - 1) (by omega)
    rw [show ops.take (ops.length - 1 + 1) = ops from by
      rw [show ops.length - 1 + 1 = ops.length from by omega]
      exact List.take_length ops] at h1
    rw [runClaims_total, List.getLast_eq_getElem,
      show (⟨0, tb⟩ : UserClaimStatus).claimed_amount = 0 from rfl, Nat.sub_zero]
    rw [List.get_eq_getElem] at h1
    exact h1
  · intro wallet a p r st st' d st2 h hle2
    have hinv := claimProcess_ok_inv h
    simp only [Option.getD] at hinv
    obtain ⟨ha, hlen, hroot, hver, hlt, hst, hd⟩ := hinv
    have hclaimed : st'.claimed_amount = a := by rw [hst]
    rw [claimProcess_delta wallet a p r (some st2) ha (by omega) hroot hver]
    rw [if_neg (show ¬ ((some st2).getD ⟨0, 0⟩).claimed_amount < a from by
      simp only [Option.getD]
      omega)]

/-- C2 witness: the fresh recipient proves `100` then `250` (valid
single-leaf proofs): the transferred total is the final entitlement
`250`, and replaying the already-redeemed `100` fails with
`AlreadyClaimed`. -/
theorem c2_witness :
    (runClaims (List.replicate 32 0) ⟨0, 0⟩
      [(100, [], claimComputeLeaf (List.replicate 32 0) 100),
       (250, [], claimComputeLeaf (List.replicate 32 0) 250)]).2 = 250 ∧
    claimProcess (List.replicate 32 0) 100 []
      (claimComputeLeaf (List.replicate 32 0) 100) (some ⟨100, 0⟩) =
      .error YapError.AlreadyClaimed := by
  constructor
  · have h := (c2_cumulative_accounting.2.1 (List.replicate 32 0) 0
      [(100, [], claimComputeLeaf (List.replicate 32 0) 100),
       (250, [], claimComputeLeaf (List.replicate 32 0) 250)]
      (by decide) (by decide)).2 (by simp)
    exact h
  · exact c2_cumulative_accounting.2.2 (List.replicate 32 0) 100 []
      (claimComputeLeaf (List.replicate 32 0) 100) ⟨0, 0⟩ ⟨100, 0⟩ 100 ⟨100, 0⟩ rfl
      (by norm_num)

end Yap
